import Mathlib

/-!
# Verification of the raptor-gtfs-pipeline against its specification

Shallow embedding of the pipeline's core operations, translated from the
Python sources:

* `raptor_pipeline/transform/compression.py` — delta codec for time rows;
* `raptor_pipeline/gtfs/reader.py` — internal-ID assignment by sorted
  external IDs;
* `raptor_pipeline/transform/routes.py` — route-direction grouping,
  canonical pattern inference, and the failing `RouteData(...)` call;
* `raptor_pipeline/transform/trips.py` — trip alignment, partial-trip
  rejection and trip sorting;
* `raptor_pipeline/output/binary.py` — little-endian binary writers and the
  header validator;
* `raptor_query.py` — the `routes.bin` loader and the RAPTOR route scan;
* `raptor_pipeline/api.py` — manifest assembly in `_write_period_output`.

Machine integers are modelled as `Nat`/`Int` with explicit reduction modulo
`2^w` at the byte boundary; Python's IEEE `+inf` sentinel inside aligned time
arrays is modelled as `Option Int` with `none` standing for `+∞`; fallible
decoding returns `Except`.
-/

/-! ## Basic list machinery: a stable insertion sort

Python's `list.sort`/`sorted` is a stable sort by key.  `sortLe le` below is
insertion sort inserting each element before the first element it is
`le`-related to; with `le a b = (key a ≤ key b)` this is exactly a stable
sort by `key`, matching CPython's semantics on total preorders. -/

def insertLe {α : Type} (le : α → α → Bool) (a : α) : List α → List α
  | [] => [a]
  | b :: l => if le a b then a :: b :: l else b :: insertLe le a l

def sortLe {α : Type} (le : α → α → Bool) : List α → List α
  | [] => []
  | a :: l => insertLe le a (sortLe le l)

theorem insertLe_perm {α : Type} (le : α → α → Bool) (a : α) (l : List α) :
    List.Perm (insertLe le a l) (a :: l) := by
  induction l with
  | nil => simp [insertLe]
  | cons b t ih =>
      by_cases h : le a b
      · simp [insertLe, h]
      · simp only [insertLe, h]
        exact (ih.cons b).trans (List.Perm.swap a b t)

theorem sortLe_perm {α : Type} (le : α → α → Bool) (l : List α) :
    List.Perm (sortLe le l) l := by
  induction l with
  | nil => simp [sortLe]
  | cons a t ih =>
      simp only [sortLe]
      exact (insertLe_perm le a (sortLe le t)).trans (List.Perm.cons a ih)

/-! ## Lexicographic orders used by the Python code

Python compares `str` values by Unicode code point, and tuples/lists
lexicographically componentwise. -/

def natListLt : List Nat → List Nat → Bool
  | [], [] => false
  | [], _ :: _ => true
  | _ :: _, [] => false
  | a :: as, b :: bs => if a < b then true else if b < a then false else natListLt as bs

def strCodes (s : String) : List Nat := s.data.map Char.toNat

def strLtB (a b : String) : Bool := natListLt (strCodes a) (strCodes b)

def strLeB (a b : String) : Bool := strLtB a b || (a == b)

/-- Lexicographic comparison of lists of strings (Python tuple-of-str `<`). -/
def strListLt : List String → List String → Bool
  | [], [] => false
  | [], _ :: _ => true
  | _ :: _, [] => false
  | a :: as, b :: bs =>
      if strLtB a b then true else if strLtB b a then false else strListLt as bs

/-! ## Delta codec (`transform/compression.py`)

`encode_times` emits the first value absolute then successive differences;
`decode_times` is the inverse prefix sum.  Faithful to the Python loops:
`encoded = [times[0]]; for i in 1..: encoded.append(times[i] - times[i-1])`
and `decoded = [e[0]]; for i in 1..: decoded.append(decoded[-1] + e[i])`. -/

def encodeDeltas (prev : Int) : List Int → List Int
  | [] => []
  | x :: xs => (x - prev) :: encodeDeltas x xs

def encode_times : List Int → List Int
  | [] => []
  | t :: ts => t :: encodeDeltas t ts

def decodeDeltas (acc : Int) : List Int → List Int
  | [] => []
  | d :: ds => (acc + d) :: decodeDeltas (acc + d) ds

def decode_times : List Int → List Int
  | [] => []
  | d :: ds => d :: decodeDeltas d ds

theorem decodeDeltas_encodeDeltas (prev : Int) (ts : List Int) :
    decodeDeltas prev (encodeDeltas prev ts) = ts := by
  induction ts generalizing prev with
  | nil => rfl
  | cons x xs ih => simp [encodeDeltas, decodeDeltas, ih]

/-- **C9.** For every non-empty list of integers `ts`, decoding the delta
encoding recovers the original list: `decode_times (encode_times ts) = ts`
(the composition is the identity on non-empty integer sequences). -/
theorem c9_decode_encode_id (ts : List Int) (_h : ts ≠ []) :
    decode_times (encode_times ts) = ts := by
  cases ts with
  | nil => rfl
  | cons t rest => simp [encode_times, decode_times, decodeDeltas_encodeDeltas]

/-- **C9 witness.** The spec's own example row: the trip at
08:00, 08:10, 08:20 delta-encodes to `[28800, 600, 600]` and decodes back. -/
theorem c9_decode_encode_id_witness :
    ([28800, 29400, 30000] : List Int) ≠ [] ∧
      decode_times (encode_times [28800, 29400, 30000]) = [28800, 29400, 30000] :=
  ⟨by decide, c9_decode_encode_id [28800, 29400, 30000] (by decide)⟩

/-! ## GTFS data model (`gtfs/models.py`, `gtfs/reader.py`)

`GTFSReader` sorts stops/routes/trips lexicographically by external string ID
and assigns internal IDs by position in that sorted order; `stop_times` are
sorted by `(trip_id, stop_sequence)`.  We model a reader state after
`read_all()` as the sorted entity lists, with the internal-ID maps realised
as index-into-sorted-list.  A time inside an aligned trip row is
`Option Int`, `none` standing for Python's `math.inf` sentinel. -/

structure GtfsTrip where
  trip_id : String
  route_id : String
  service_id : String
  direction_id : Int
  deriving DecidableEq, Repr

structure GtfsStopTime where
  trip_id : String
  stop_id : String
  arrival_time : Int
  departure_time : Int
  stop_sequence : Int
  deriving DecidableEq, Repr

structure Reader where
  stopIds : List String
  routeIds : List String
  tripIds : List String
  trips : List GtfsTrip
  stop_times : List GtfsStopTime
  deriving DecidableEq, Repr

/-- Position of the first occurrence of `k` (Python: value of the id map
built by enumerating the sorted list). -/
def idxOf {κ : Type} [DecidableEq κ] (k : κ) : List κ → Nat
  | [] => 0
  | a :: l => if a = k then 0 else idxOf k l + 1

def Reader.internalStop (r : Reader) (k : String) : Nat := idxOf k r.stopIds

def Reader.internalRoute (r : Reader) (k : String) : Nat := idxOf k r.routeIds

def Reader.internalTrip (r : Reader) (k : String) : Nat := idxOf k r.tripIds

/-- `(trip_id, stop_sequence)` tuple comparison used by `read_stop_times`. -/
def stopTimeLeB (a b : GtfsStopTime) : Bool :=
  strLtB a.trip_id b.trip_id ||
    (decide (a.trip_id = b.trip_id) && decide (a.stop_sequence ≤ b.stop_sequence))

/-- Build the reader state that `GTFSReader.read_all` leaves behind:
every entity list sorted by its external ID as in `reader.py`. -/
def mkReader (stopIdsRaw routeIdsRaw : List String) (tripsRaw : List GtfsTrip)
    (stopTimesRaw : List GtfsStopTime) : Reader :=
  { stopIds := sortLe strLeB stopIdsRaw
    routeIds := sortLe strLeB routeIdsRaw
    tripIds := sortLe strLeB (tripsRaw.map (·.trip_id))
    trips := sortLe (fun a b => strLeB a.trip_id b.trip_id) tripsRaw
    stop_times := sortLe stopTimeLeB stopTimesRaw }

/-! ## Internal transformed model (`gtfs/models.py`) -/

structure TripData where
  trip_id_internal : Nat
  trip_id_gtfs : String
  arrival_times : List (Option Int)
  is_partial : Bool
  deriving DecidableEq, Repr

structure RouteData where
  route_id_internal : Nat
  route_id_gtfs : String
  route_name : String
  stop_ids : List Nat
  trips : List TripData
  deriving DecidableEq, Repr

/-! ## Order-preserving grouping (Python `dict` insertion-order semantics)

`trips_by_route_dir` and `stop_sequences` in `routes.py`/`trips.py` are
built by appending to a `dict` of lists: keys appear in first-occurrence
order, values in append order. -/

def addToGroup {κ β : Type} [DecidableEq κ] (gs : List (κ × List β)) (k : κ) (b : β) :
    List (κ × List β) :=
  if gs.any (fun g => decide (g.1 = k)) then
    gs.map (fun g => if g.1 = k then (g.1, g.2 ++ [b]) else g)
  else
    gs ++ [(k, [b])]

def groupPairs {κ β : Type} [DecidableEq κ] (l : List (κ × β)) : List (κ × List β) :=
  l.foldl (fun gs kb => addToGroup gs kb.1 kb.2) []

def lookupGroup {κ β : Type} [DecidableEq κ] (gs : List (κ × List β)) (k : κ) :
    Option (List β) :=
  (gs.find? (fun g => decide (g.1 = k))).map (·.2)

/-! ## Route canonicalization (`transform/routes.py`) -/

/-- Occurrence counts of each distinct sequence, keys in first-occurrence
order (Python `collections.Counter` over the sequence list). -/
def countOcc (l : List (List String)) : List (List String × Nat) :=
  l.foldl (fun cs s =>
    if cs.any (fun c => decide (c.1 = s)) then
      cs.map (fun c => if c.1 = s then (c.1, c.2 + 1) else c)
    else cs ++ [(s, 1)]) []

/-- Leftmost minimum under Python tuple `<` (Python `min` on sequences). -/
def minSeq (first : List String) (rest : List (List String)) : List String :=
  rest.foldl (fun acc s => if strListLt s acc then s else acc) first

/-- `_find_canonical_sequence`: modal sequence, lexicographically smallest
on a frequency tie. -/
def findCanonicalSequence (sequences : List (List String)) : List String :=
  let counts := countOcc sequences
  let canonicalCount : Nat := (counts.map (·.2)).foldl Nat.max 0
  let tied := (counts.filter (fun c => decide (c.2 = canonicalCount))).map (·.1)
  if tied.length > 1 then minSeq (tied.headD []) tied.tail else tied.headD []

/-- `(route_id, direction_id)` tuple comparison used by
`sorted(trips_by_route_dir.items())`. -/
def routeDirKeyLeB (a b : (String × Int) × List String) : Bool :=
  strLtB a.1.1 b.1.1 ||
    (decide (a.1.1 = b.1.1) && decide (a.1.2 ≤ b.1.2))

/-- The `(route_id, direction_id) → [trip_id]` groups of `build_routes`,
in sorted key order. -/
def sortedRouteDirGroups (reader : Reader) : List ((String × Int) × List String) :=
  sortLe routeDirKeyLeB
    (groupPairs (reader.trips.map (fun t => ((t.route_id, t.direction_id), t.trip_id))))

/-- The `trip_id → [stop_id]` sequences of `build_routes`. -/
def stopSequencesOf (reader : Reader) : List (String × List String) :=
  groupPairs (reader.stop_times.map (fun st => (st.trip_id, st.stop_id)))

/-- The stop sequences collected for one route-direction group
(`sequences_for_route`). -/
def seqsForGroup (reader : Reader) (tripIds : List String) : List (List String) :=
  tripIds.filterMap (lookupGroup (stopSequencesOf reader))

/-- Python-level exception of the transformer.  `build_routes`
(`transform/routes.py` lines 57-62) calls the `RouteData` constructor
without the required `route_name` field (`gtfs/models.py` line 95 declares
it with no default), so the call raises `TypeError` naming the missing
field. -/
inductive PyError where
  | typeError (missingField : String)
  deriving DecidableEq, Repr

instance {ε α : Type} [DecidableEq ε] [DecidableEq α] : DecidableEq (Except ε α) := fun a b =>
  match a, b with
  | .error e1, .error e2 =>
      if h : e1 = e2 then .isTrue (congrArg Except.error h)
      else .isFalse (fun hh => h (Except.error.inj hh))
  | .error _, .ok _ => .isFalse (fun hh => Except.noConfusion hh)
  | .ok _, .error _ => .isFalse (fun hh => Except.noConfusion hh)
  | .ok a1, .ok a2 =>
      if h : a1 = a2 then .isTrue (congrArg Except.ok h)
      else .isFalse (fun hh => h (Except.ok.inj hh))

/-- The argument values `build_routes` evaluates at the `RouteData(...)`
call site for one surviving `(route_id, direction_id)` group, before the
constructor itself raises: `route_id_internal =
reader.get_internal_route_id(route_id)` (the reader's per-`route_id`
internal ID, line 34), `route_id_gtfs = route_id`, the canonical
`stop_ids` mapped to internal stop IDs, and `trips=[]`.  No `route_name`
argument appears among them. -/
def routeCallArgs (reader : Reader) (item : (String × Int) × List String) :
    Nat × String × List Nat × List TripData :=
  (reader.internalRoute item.1.1, item.1.1,
   (findCanonicalSequence (seqsForGroup reader item.2)).map reader.internalStop, [])

/-- Loop body of `build_routes` over the sorted groups: a group without
stop sequences is skipped with a warning; at the first group that has one,
the `RouteData(...)` call raises `TypeError` (its argument expressions,
`routeCallArgs`, are evaluated first) and the exception propagates out of
`build_routes`. -/
def buildRoutesGo (reader : Reader) :
    List ((String × Int) × List String) → Except PyError (List RouteData)
  | [] => .ok []
  | item :: rest =>
      if (seqsForGroup reader item.2).isEmpty then buildRoutesGo reader rest
      else .error (.typeError "route_name")

/-- `build_routes` (`transform/routes.py`): returns the empty route list
when no `(route_id, direction_id)` group has a stop sequence; otherwise it
raises `TypeError` at the first surviving group in sorted key order,
because the `RouteData(...)` call at lines 57-62 omits the required
`route_name` field of the dataclass (`gtfs/models.py` line 95).  No
`RouteData` is ever returned. -/
def buildRoutes (reader : Reader) : Except PyError (List RouteData) :=
  buildRoutesGo reader (sortedRouteDirGroups reader)

/-- Feed with one GTFS `route_id` `"R"` served in both directions: trip
`"x"` has `direction_id = 0` over A→B, trip `"y"` has `direction_id = 1`
over B→A. -/
def exReaderC1 : Reader :=
  mkReader ["A", "B"] ["R"]
    [⟨"x", "R", "s", 0⟩, ⟨"y", "R", "s", 1⟩]
    [⟨"x", "A", 10, 10, 1⟩, ⟨"x", "B", 20, 20, 2⟩,
     ⟨"y", "B", 30, 30, 1⟩, ⟨"y", "A", 40, 40, 2⟩]

example : buildRoutes exReaderC1 = .error (.typeError "route_name") := by decide

/-! ## Order lemmas for the Python comparators -/

theorem natListLt_cons_iff {a b : Nat} {as bs : List Nat} :
    natListLt (a :: as) (b :: bs) = true ↔ a < b ∨ (a = b ∧ natListLt as bs = true) := by
  show (if a < b then true else if b < a then false else natListLt as bs) = true ↔ _
  split_ifs with h1 h2
  · simp [h1]
  · simp only [Bool.false_eq_true, false_iff]
    rintro (h | ⟨rfl, _⟩)
    · exact h1 h
    · omega
  · have hab : a = b := by omega
    subst hab
    simp

theorem natListLt_irrefl (x : List Nat) : natListLt x x = false := by
  induction x with
  | nil => rfl
  | cons a as ih => simp [natListLt, ih]

theorem natListLt_trans :
    ∀ (x y z : List Nat), natListLt x y = true → natListLt y z = true → natListLt x z = true := by
  intro x
  induction x with
  | nil =>
      intro y z hxy hyz
      cases y with
      | nil => simp [natListLt] at hxy
      | cons b bs =>
          cases z with
          | nil => simp [natListLt] at hyz
          | cons c cs => simp [natListLt]
  | cons a as ih =>
      intro y z hxy hyz
      cases y with
      | nil => simp [natListLt] at hxy
      | cons b bs =>
          cases z with
          | nil => simp [natListLt] at hyz
          | cons c cs =>
              rw [natListLt_cons_iff] at hxy hyz ⊢
              rcases hxy with h1 | ⟨h1, h1'⟩ <;> rcases hyz with h2 | ⟨h2, h2'⟩
              · exact Or.inl (h1.trans h2)
              · exact Or.inl (h2 ▸ h1)
              · exact Or.inl (h1 ▸ h2)
              · exact Or.inr ⟨h1.trans h2, ih bs cs h1' h2'⟩

theorem natListLt_eq_of_not :
    ∀ (x y : List Nat), natListLt x y = false → natListLt y x = false → x = y := by
  intro x
  induction x with
  | nil =>
      intro y hxy _
      cases y with
      | nil => rfl
      | cons b bs => simp [natListLt] at hxy
  | cons a as ih =>
      intro y hxy hyx
      cases y with
      | nil => simp [natListLt] at hyx
      | cons b bs =>
          have h1 : ¬(a < b ∨ (a = b ∧ natListLt as bs = true)) := by
            rw [← natListLt_cons_iff]; simp [hxy]
          have h2 : ¬(b < a ∨ (b = a ∧ natListLt bs as = true)) := by
            rw [← natListLt_cons_iff]; simp [hyx]
          push_neg at h1 h2
          have hab : a = b := by omega
          subst hab
          have := ih bs (by simpa using h1.2 rfl) (by simpa using h2.2 rfl)
          rw [this]

theorem strCodes_inj {a b : String} (h : strCodes a = strCodes b) : a = b := by
  have hchar : Function.Injective Char.toNat := by
    intro c d hcd
    refine Char.eq_of_val_eq (UInt32.eq_of_toBitVec_eq ?_)
    simp only [Char.toNat, UInt32.toNat] at hcd
    exact BitVec.eq_of_toNat_eq hcd
  have hdata : a.data = b.data := List.map_injective_iff.mpr hchar h
  exact String.toList_inj.mp hdata

theorem strLtB_eq_of_not {a b : String} (h1 : strLtB a b = false) (h2 : strLtB b a = false) :
    a = b :=
  strCodes_inj (natListLt_eq_of_not _ _ h1 h2)

theorem strLtB_trans {a b c : String} (h1 : strLtB a b = true) (h2 : strLtB b c = true) :
    strLtB a c = true :=
  natListLt_trans _ _ _ h1 h2

theorem strLtB_irrefl (a : String) : strLtB a a = false := natListLt_irrefl _

theorem routeDirKeyLeB_iff {a b : (String × Int) × List String} :
    routeDirKeyLeB a b = true ↔
      strLtB a.1.1 b.1.1 = true ∨ (a.1.1 = b.1.1 ∧ a.1.2 ≤ b.1.2) := by
  simp [routeDirKeyLeB]

theorem routeDirKeyLeB_total (a b : (String × Int) × List String) :
    routeDirKeyLeB a b = true ∨ routeDirKeyLeB b a = true := by
  rw [routeDirKeyLeB_iff, routeDirKeyLeB_iff]
  by_cases h1 : strLtB a.1.1 b.1.1 = true
  · exact Or.inl (Or.inl h1)
  · by_cases h2 : strLtB b.1.1 a.1.1 = true
    · exact Or.inr (Or.inl h2)
    · have heq : a.1.1 = b.1.1 :=
        strLtB_eq_of_not (by simpa using h1) (by simpa using h2)
      by_cases h3 : a.1.2 ≤ b.1.2
      · exact Or.inl (Or.inr ⟨heq, h3⟩)
      · exact Or.inr (Or.inr ⟨heq.symm, by omega⟩)

theorem routeDirKeyLeB_trans (a b c : (String × Int) × List String)
    (h1 : routeDirKeyLeB a b = true) (h2 : routeDirKeyLeB b c = true) :
    routeDirKeyLeB a c = true := by
  rw [routeDirKeyLeB_iff] at h1 h2 ⊢
  rcases h1 with h1 | ⟨h1, h1'⟩ <;> rcases h2 with h2 | ⟨h2, h2'⟩
  · exact Or.inl (strLtB_trans h1 h2)
  · exact Or.inl (h2 ▸ h1)
  · exact Or.inl (h1 ▸ h2)
  · exact Or.inr ⟨h1.trans h2, h1'.trans h2'⟩

/-! ## Sortedness of the stable insertion sort -/

theorem insertLe_mem {α : Type} (le : α → α → Bool) (a : α) (l : List α) (x : α) :
    x ∈ insertLe le a l ↔ x = a ∨ x ∈ l := by
  rw [(insertLe_perm le a l).mem_iff, List.mem_cons]

theorem insertLe_pairwise {α : Type} (le : α → α → Bool)
    (total : ∀ a b, le a b = true ∨ le b a = true)
    (htrans : ∀ a b c, le a b = true → le b c = true → le a c = true)
    (a : α) (l : List α) (h : l.Pairwise (fun x y => le x y = true)) :
    (insertLe le a l).Pairwise (fun x y => le x y = true) := by
  induction l with
  | nil => simp [insertLe]
  | cons b t ih =>
      rw [List.pairwise_cons] at h
      by_cases hab : le a b = true
      · simp only [insertLe, hab, if_true]
        refine List.Pairwise.cons ?_ (List.Pairwise.cons h.1 h.2)
        intro x hx
        rcases List.mem_cons.mp hx with rfl | hx
        · exact hab
        · exact htrans a b x hab (h.1 x hx)
      · simp only [insertLe, hab, if_false]
        have hba : le b a = true := (total a b).resolve_left hab
        refine List.Pairwise.cons ?_ (ih h.2)
        intro x hx
        rcases (insertLe_mem le a t x).mp hx with rfl | hx
        · exact hba
        · exact h.1 x hx

theorem sortLe_pairwise {α : Type} (le : α → α → Bool)
    (total : ∀ a b, le a b = true ∨ le b a = true)
    (htrans : ∀ a b c, le a b = true → le b c = true → le a c = true)
    (l : List α) : (sortLe le l).Pairwise (fun x y => le x y = true) := by
  induction l with
  | nil => simp [sortLe]
  | cons a t ih => exact insertLe_pairwise le total htrans a (sortLe le t) ih

/-! ## Keys of order-preserving groups are distinct -/

theorem map_update_keys {κ β : Type} [DecidableEq κ] (k : κ) (b : β)
    (gs : List (κ × List β)) :
    (gs.map (fun g => if g.1 = k then (g.1, g.2 ++ [b]) else g)).map (·.1)
      = gs.map (·.1) := by
  induction gs with
  | nil => rfl
  | cons g t ih => by_cases hg : g.1 = k <;> simp [hg, ih]

theorem any_key_iff_mem {κ β : Type} [DecidableEq κ] (gs : List (κ × List β)) (k : κ) :
    (gs.any fun g => decide (g.1 = k)) = true ↔ k ∈ gs.map (·.1) := by
  simp only [List.any_eq_true, decide_eq_true_eq, List.mem_map]

theorem addToGroup_keys {κ β : Type} [DecidableEq κ] (gs : List (κ × List β)) (k : κ) (b : β) :
    (addToGroup gs k b).map (·.1)
      = if k ∈ gs.map (·.1) then gs.map (·.1) else gs.map (·.1) ++ [k] := by
  by_cases h : k ∈ gs.map (·.1)
  · rw [if_pos h]
    unfold addToGroup
    rw [if_pos ((any_key_iff_mem gs k).mpr h)]
    exact map_update_keys k b gs
  · rw [if_neg h]
    unfold addToGroup
    rw [if_neg (by rw [any_key_iff_mem]; exact h)]
    simp

theorem foldl_addToGroup_keys_nodup {κ β : Type} [DecidableEq κ]
    (l : List (κ × β)) :
    ∀ gs : List (κ × List β), (gs.map (·.1)).Nodup →
      (((l.foldl (fun gs kb => addToGroup gs kb.1 kb.2) gs)).map (·.1)).Nodup := by
  induction l with
  | nil => intro gs h; simpa using h
  | cons kb t ih =>
      intro gs h
      refine ih (addToGroup gs kb.1 kb.2) ?_
      rw [addToGroup_keys]
      by_cases hk : kb.1 ∈ gs.map (·.1)
      · rwa [if_pos hk]
      · rw [if_neg hk]
        simp [List.nodup_append, h, hk]

/-- Keys of an order-preserving grouping are pairwise distinct: the grouping
emits exactly one entry per distinct key of the input. -/
theorem groupPairs_keys_nodup {κ β : Type} [DecidableEq κ] (l : List (κ × β)) :
    ((groupPairs l).map (·.1)).Nodup :=
  foldl_addToGroup_keys_nodup l [] (by simp)

/-- The `(route_id, direction_id)` groups that survive `build_routes`'s
"no stop sequences" skip. -/
def survivingGroups (reader : Reader) : List ((String × Int) × List String) :=
  (sortedRouteDirGroups reader).filter (fun item => !(seqsForGroup reader item.2).isEmpty)

theorem buildRoutesGo_spec (reader : Reader) :
    ∀ l : List ((String × Int) × List String),
      buildRoutesGo reader l
        = (if (l.filter (fun item => !(seqsForGroup reader item.2).isEmpty)).isEmpty
           then Except.ok []
           else Except.error (PyError.typeError "route_name")) := by
  intro l
  induction l with
  | nil => rfl
  | cons item rest ih =>
      by_cases hs : (seqsForGroup reader item.2).isEmpty
      · simp only [buildRoutesGo, List.filter_cons, hs, if_true, Bool.not_true, ih,
          Bool.false_eq_true, if_false]
      · simp only [buildRoutesGo, List.filter_cons, Bool.not_eq_true] at hs ⊢
        simp only [hs, Bool.false_eq_true, if_false, Bool.not_false, if_true,
          List.isEmpty_cons]

/-- **C1 (counterexample).** The feed `exReaderC1` has a single GTFS
`route_id` `"R"` with trips in `direction_id` 0 and 1, each with stop
times.  Contrary to the claim, `build_routes` emits *no* Route at all: the
sorted groups are `("R", 0)` and `("R", 1)`, both survive the
no-stop-sequences skip, and at the first one the `RouteData(...)` call
raises `TypeError` because it passes no `route_name` (a required field).
Moreover the `route_id_internal` argument evaluated at the call site is
the reader's internal ID of `"R"` (namely `0`) for *both* groups — not
distinct fresh identifiers assigned by sort order. -/
theorem c1_counterexample :
    sortedRouteDirGroups exReaderC1 = [(("R", 0), ["x"]), (("R", 1), ["y"])]
    ∧ buildRoutes exReaderC1 = .error (.typeError "route_name")
    ∧ (routeCallArgs exReaderC1 (("R", 0), ["x"])).1 = 0
    ∧ (routeCallArgs exReaderC1 (("R", 1), ["y"])).1 = 0
    ∧ exReaderC1.internalRoute "R" = 0 := by decide

/-- **C1 (amended).** `build_routes` never emits a Route.  Formally:
(i) it returns `ok []` when no `(route_id, direction_id)` group has a stop
sequence and raises `TypeError` (missing required `route_name`) otherwise;
(ii) the group keys it iterates are pairwise distinct — one group per
distinct `(route_id, direction_id)` pair; (iii) the groups are iterated in
ascending `(route_id, direction_id)` order; (iv) the `route_id_internal`
argument evaluated at the failing `RouteData(...)` call site is the
reader's internal ID of the GTFS `route_id` alone, so any two groups with
the same `route_id` — e.g. the two directions of one route — get the same
value, not fresh per-direction identifiers. -/
theorem c1_amended (reader : Reader) :
    buildRoutes reader
      = (if (survivingGroups reader).isEmpty then Except.ok []
         else Except.error (PyError.typeError "route_name"))
    ∧ ((sortedRouteDirGroups reader).map (·.1)).Nodup
    ∧ (sortedRouteDirGroups reader).Pairwise (fun a b => routeDirKeyLeB a b = true)
    ∧ ∀ i1 ∈ sortedRouteDirGroups reader, ∀ i2 ∈ sortedRouteDirGroups reader,
        i1.1.1 = i2.1.1 → (routeCallArgs reader i1).1 = (routeCallArgs reader i2).1 := by
  refine ⟨buildRoutesGo_spec reader _, ?_, ?_, ?_⟩
  · have hperm := (sortLe_perm routeDirKeyLeB
      (groupPairs (reader.trips.map (fun t => ((t.route_id, t.direction_id), t.trip_id))))).map
      (·.1)
    exact hperm.nodup_iff.mpr (groupPairs_keys_nodup _)
  · exact sortLe_pairwise _ routeDirKeyLeB_total routeDirKeyLeB_trans _
  · intro i1 _ i2 _ h
    show reader.internalRoute i1.1.1 = reader.internalRoute i2.1.1
    rw [h]

/-- **C1 (amended) witness.** In the two-direction feed `exReaderC1`, both
groups are iterated, and the internal-route-ID argument assembled for the
`RouteData` call is the same for the `("R", 0)` and `("R", 1)` groups. -/
theorem c1_amended_witness :
    (("R", (0 : Int)), ["x"]) ∈ sortedRouteDirGroups exReaderC1
    ∧ (("R", (1 : Int)), ["y"]) ∈ sortedRouteDirGroups exReaderC1
    ∧ (routeCallArgs exReaderC1 (("R", 0), ["x"])).1
        = (routeCallArgs exReaderC1 (("R", 1), ["y"])).1 :=
  ⟨by decide, by decide,
   (c1_amended exReaderC1).2.2.2 _ (by decide) _ (by decide) rfl⟩

/-! ## Trip alignment and sorting (`transform/trips.py`)

`build_and_sort_trips` groups stop_times by trip, selects a route's trips
by GTFS `route_id` alone (never consulting `direction_id`), aligns each
trip to the route's canonical stop sequence (missing canonical stops
become `+∞`, flagging the trip partial), drops partial trips unless
`allow_partial` is set, and sorts the survivors by
`aligned_times[0] if aligned_times else math.inf` with Python's stable
sort (no further key). -/

def stopTimesByTrip (reader : Reader) : List (String × List GtfsStopTime) :=
  groupPairs (reader.stop_times.map (fun st => (st.trip_id, st)))

/-- `stop_time_map[stop_id] = arrival_time` with later rows overwriting
earlier ones, then lookup — the Python dict build plus `[]`/`in`. -/
def stopTimeLookup (reader : Reader) (sts : List GtfsStopTime) (sid : Nat) : Option Int :=
  sts.foldl
    (fun acc st => if reader.internalStop st.stop_id = sid then some st.arrival_time else acc)
    none

/-- Walk the canonical pattern taking the mapped time, `+∞` when absent. -/
def alignTimes (reader : Reader) (canonical : List Nat) (sts : List GtfsStopTime) :
    List (Option Int) :=
  canonical.map (stopTimeLookup reader sts)

/-- Python `≤` on `int`-or-`math.inf` sort keys (`none` is `+∞`). -/
def etLeB : Option Int → Option Int → Bool
  | some a, some b => decide (a ≤ b)
  | some _, none => true
  | none, some _ => false
  | none, none => true

/-- Python `<` on `int`-or-`math.inf` values (`none` is `+∞`). -/
def etLtB (u v : Option Int) : Bool := !(etLeB v u)

/-- Build the `(first_time, TripData)` entry for one trip of a route, or
`none` when the trip is skipped (no stop times, or partial and
`allow_partial` unset).  Faithful to the per-trip body of
`build_and_sort_trips`. -/
def alignedEntry (reader : Reader) (canonical : List Nat) (allow : Bool) (trip : GtfsTrip) :
    Option (Option Int × TripData) :=
  match lookupGroup (stopTimesByTrip reader) trip.trip_id with
  | none => none
  | some sts =>
      let aligned := alignTimes reader canonical sts
      let isPartial := aligned.any (fun x => x.isNone)
      if isPartial && !allow then none
      else
        some (aligned.headD none,
          { trip_id_internal := reader.internalTrip trip.trip_id
            trip_id_gtfs := trip.trip_id
            arrival_times := aligned
            is_partial := isPartial })

/-- The surviving `(first_time, TripData)` entries of one route, in
`reader.trips` order; trips are selected by `trip.route_id ==
route.route_id_gtfs` alone. -/
def candEntries (reader : Reader) (route : RouteData) (allow : Bool) :
    List (Option Int × TripData) :=
  (reader.trips.filter (fun t => decide (t.route_id = route.route_id_gtfs))).filterMap
    (alignedEntry reader route.stop_ids allow)

/-- `trip_data_list.sort(key=lambda x: x[0])` comparator. -/
def tripEntryLeB (u v : Option Int × TripData) : Bool := etLeB u.1 v.1

/-- One route's pass of `build_and_sort_trips`: sort the entries stably by
first time and store the `TripData`s. -/
def processRoute (reader : Reader) (allow : Bool) (route : RouteData) : RouteData :=
  { route with trips := (sortLe tripEntryLeB (candEntries reader route allow)).map (·.2) }

/-- `build_and_sort_trips` over all routes. -/
def buildAndSortTrips (reader : Reader) (routes : List RouteData) (allow : Bool) :
    List RouteData :=
  routes.map (processRoute reader allow)

/-- `build_routes` followed by `build_and_sort_trips` as `api.convert`
invokes them: the `TypeError` raised by `build_routes` propagates, so the
end-to-end pipeline reaches `build_and_sort_trips` only with an empty
route list.  `build_and_sort_trips` itself takes the route list as an
argument and is total on explicitly constructed `RouteData` values. -/
def transform (reader : Reader) (allow : Bool) : Except PyError (List RouteData) :=
  match buildRoutes reader with
  | .error e => .error e
  | .ok routes => .ok (buildAndSortTrips reader routes allow)

/-- The first defined (non-`+∞`) arrival time of an aligned row — the sort
key the specification claims (not the one the code uses). -/
def firstDefinedTime (td : TripData) : Option Int :=
  (td.arrival_times.filterMap id).head?

/-- The sort key the code actually uses for a trip: the aligned row's first
entry (`+∞` when the first canonical position is undefined or the row is
empty). -/
def tripKey (td : TripData) : Option Int := td.arrival_times.headD none

/-- Feed for C7: trip `"a"` is complete (times 10, 20 on pattern A→B);
trip `"b"` serves only stop B at time 5, so with partial trips allowed its
aligned row is `[+∞, 5]`. -/
def exReaderC7 : Reader :=
  mkReader ["A", "B"] ["R"]
    [⟨"a", "R", "s", 0⟩, ⟨"b", "R", "s", 0⟩]
    [⟨"a", "A", 10, 10, 1⟩, ⟨"a", "B", 20, 20, 2⟩, ⟨"b", "B", 5, 5, 1⟩]

example :
    processRoute exReaderC7 true ⟨0, "R", "", [0, 1], []⟩
      = { route_id_internal := 0, route_id_gtfs := "R", route_name := "",
          stop_ids := [0, 1],
          trips := [⟨0, "a", [some 10, some 20], false⟩,
                    ⟨1, "b", [none, some 5], true⟩] } := by decide

/-- Feed for C8: trip `"u"` runs A→B at 10, 20; trip `"v"` runs B→A at
0, 5.  The canonical pattern is `[A, B]` (frequency tie broken
lexicographically), so `"v"` aligns to the complete but decreasing row
`[5, 0]`. -/
def exReaderC8 : Reader :=
  mkReader ["A", "B"] ["R"]
    [⟨"u", "R", "s", 0⟩, ⟨"v", "R", "s", 0⟩]
    [⟨"u", "A", 10, 10, 1⟩, ⟨"u", "B", 20, 20, 2⟩,
     ⟨"v", "B", 0, 0, 1⟩, ⟨"v", "A", 5, 5, 2⟩]

example :
    processRoute exReaderC8 false ⟨0, "R", "", [0, 1], []⟩
      = { route_id_internal := 0, route_id_gtfs := "R", route_name := "",
          stop_ids := [0, 1],
          trips := [⟨1, "v", [some 5, some 0], false⟩,
                    ⟨0, "u", [some 10, some 20], false⟩] } := by decide

/-! ## Order lemmas for the `int`-or-`+∞` sort key -/

theorem etLeB_trans {u v w : Option Int} (h1 : etLeB u v = true) (h2 : etLeB v w = true) :
    etLeB u w = true := by
  cases u <;> cases v <;> cases w <;> simp_all [etLeB] <;> omega

theorem etLtB_or_eq_of_le {u v : Option Int} (h : etLeB u v = true) :
    etLtB u v = true ∨ u = v := by
  cases u <;> cases v <;> simp_all [etLeB, etLtB] <;> omega

theorem etLtB_of_not_le {u v : Option Int} (h : etLeB u v = false) : etLtB v u = true := by
  cases u <;> cases v <;> simp_all [etLeB, etLtB]

theorem etLeB_lt_trans {u v w : Option Int} (h1 : etLeB u v = true) (h2 : etLtB v w = true) :
    etLtB u w = true := by
  cases u <;> cases v <;> cases w <;> simp_all [etLeB, etLtB] <;> omega

/-! ## Stability of the Python sort: sorted output interleaves the key order
with the input order on key ties -/

theorem insertLe_stable_pairwise {α : Type} (key : α → Option Int) (S : α → α → Prop)
    (a : α) (l : List α)
    (hl : l.Pairwise (fun u v => etLtB (key u) (key v) = true ∨ (key u = key v ∧ S u v)))
    (ha : ∀ x ∈ l, S a x) :
    (insertLe (fun u v => etLeB (key u) (key v)) a l).Pairwise
      (fun u v => etLtB (key u) (key v) = true ∨ (key u = key v ∧ S u v)) := by
  induction l with
  | nil => simp [insertLe]
  | cons b t ih =>
      rw [List.pairwise_cons] at hl
      by_cases hab : etLeB (key a) (key b) = true
      · simp only [insertLe, hab, if_true]
        refine List.Pairwise.cons ?_ (List.Pairwise.cons hl.1 hl.2)
        intro x hx
        rcases List.mem_cons.mp hx with rfl | hx
        · rcases etLtB_or_eq_of_le hab with h | h
          · exact Or.inl h
          · exact Or.inr ⟨h, ha x (by simp)⟩
        · rcases hl.1 x hx with h | ⟨heq, _⟩
          · exact Or.inl (etLeB_lt_trans hab h)
          · rcases etLtB_or_eq_of_le (heq ▸ hab) with h' | h'
            · exact Or.inl h'
            · exact Or.inr ⟨h', ha x (List.mem_cons_of_mem b hx)⟩
      · simp only [insertLe, hab, if_false]
        refine List.Pairwise.cons ?_ (ih hl.2 (fun x hx => ha x (List.mem_cons_of_mem b hx)))
        intro x hx
        rcases (insertLe_mem _ a t x).mp hx with rfl | hx
        · exact Or.inl (etLtB_of_not_le (by simpa using hab))
        · exact hl.1 x hx

theorem sortLe_stable_pairwise {α : Type} (key : α → Option Int) (S : α → α → Prop)
    (l : List α) (h : l.Pairwise S) :
    (sortLe (fun u v => etLeB (key u) (key v)) l).Pairwise
      (fun u v => etLtB (key u) (key v) = true ∨ (key u = key v ∧ S u v)) := by
  induction l with
  | nil => simp [sortLe]
  | cons a t ih =>
      rw [List.pairwise_cons] at h
      exact insertLe_stable_pairwise key S a (sortLe _ t) (ih h.2)
        (fun x hx => h.1 x ((sortLe_perm _ t).mem_iff.mp hx))

/-! ## Structure of surviving trip entries -/

/-- The sort key the code attaches to a surviving trip coincides with the
time at the *first canonical position* of its aligned row (`+∞` included),
and the aligned row spans the whole canonical pattern. -/
theorem alignedEntry_spec {reader : Reader} {c : List Nat} {allow : Bool} {trip : GtfsTrip}
    {e : Option Int × TripData} (h : alignedEntry reader c allow trip = some e) :
    e.1 = tripKey e.2 ∧ e.2.arrival_times.length = c.length ∧
      e.2.trip_id_gtfs = trip.trip_id := by
  unfold alignedEntry at h
  cases hlk : lookupGroup (stopTimesByTrip reader) trip.trip_id with
  | none => rw [hlk] at h; exact absurd h (by simp)
  | some sts =>
      rw [hlk] at h
      simp only at h
      split at h
      · exact absurd h (by simp)
      · rw [Option.some.injEq] at h
        subst h
        refine ⟨rfl, ?_, rfl⟩
        simp [alignTimes]

theorem candEntries_fst {reader : Reader} {route : RouteData} {allow : Bool}
    {e : Option Int × TripData} (h : e ∈ candEntries reader route allow) :
    e.1 = tripKey e.2 := by
  obtain ⟨trip, _, htrip⟩ := List.mem_filterMap.mp h
  exact (alignedEntry_spec htrip).1

theorem mem_processRoute_trips {reader : Reader} {allow : Bool} {route : RouteData}
    {td : TripData} (h : td ∈ (processRoute reader allow route).trips) :
    ∃ trip e, alignedEntry reader route.stop_ids allow trip = some e ∧ e.2 = td := by
  obtain ⟨entry, hentry, rfl⟩ := List.mem_map.mp h
  have hcand : entry ∈ candEntries reader route allow :=
    (sortLe_perm tripEntryLeB (candEntries reader route allow)).mem_iff.mp hentry
  obtain ⟨trip, _, htrip⟩ := List.mem_filterMap.mp hcand
  exact ⟨trip, entry, htrip, rfl⟩

/-- **C7 (counterexample).** `build_and_sort_trips` is run on the feed
`exReaderC7` with partial trips allowed, for a directly constructed route
record over the canonical pattern `[A, B]` (the route list is an explicit
argument of `build_and_sort_trips`; `build_routes` itself raises before
producing one, see C1).  The emitted trip order is `"a"` (first defined
time 10) before `"b"` (first defined time 5): the code sorts by the time
at the first canonical position (`+∞` for `"b"`), not by the first
*defined* arrival time, so the output is not ascending by first defined
time as claimed. -/
theorem c7_counterexample :
    (processRoute exReaderC7 true ⟨0, "R", "", [0, 1], []⟩).trips
        = [⟨0, "a", [some 10, some 20], false⟩,
           ⟨1, "b", [none, some 5], true⟩]
    ∧ ((processRoute exReaderC7 true ⟨0, "R", "", [0, 1], []⟩).trips).map firstDefinedTime
        = [some 10, some 5]
    ∧ etLeB (some 10) (some 5) = false := by decide

/-- **C7 (amended).** A route's surviving trips are sorted ascending by the
time at the *first canonical position* of the aligned row (`+∞` when that
position is undefined, as for retained partial trips), with ties broken by
position in `reader.trips` order; when the candidate entries carry strictly
increasing internal trip IDs (which holds for a reader built by
`GTFSReader`, whose trips are sorted by external trip ID and numbered in
that order), ties resolve by internal trip ID ascending. -/
theorem c7_amended (reader : Reader) (route : RouteData) (allow : Bool)
    (hids : (candEntries reader route allow).Pairwise
      (fun u v => u.2.trip_id_internal < v.2.trip_id_internal)) :
    ((processRoute reader allow route).trips).Pairwise
      (fun u v => etLtB (tripKey u) (tripKey v) = true ∨
        (tripKey u = tripKey v ∧ u.trip_id_internal < v.trip_id_internal)) := by
  have hpair := sortLe_stable_pairwise (fun e : Option Int × TripData => e.1)
    (fun u v => u.2.trip_id_internal < v.2.trip_id_internal)
    (candEntries reader route allow) hids
  have hpair' : (sortLe tripEntryLeB (candEntries reader route allow)).Pairwise
      (fun u v => etLtB (tripKey u.2) (tripKey v.2) = true ∨
        (tripKey u.2 = tripKey v.2 ∧ u.2.trip_id_internal < v.2.trip_id_internal)) := by
    refine List.Pairwise.imp_of_mem ?_ hpair
    intro u v hu hv huv
    have hu' := candEntries_fst ((sortLe_perm tripEntryLeB _).mem_iff.mp hu)
    have hv' := candEntries_fst ((sortLe_perm tripEntryLeB _).mem_iff.mp hv)
    have huv' : etLtB u.1 v.1 = true ∨
        (u.1 = v.1 ∧ u.2.trip_id_internal < v.2.trip_id_internal) := huv
    rwa [hu', hv'] at huv'
  exact List.pairwise_map.mpr hpair'

/-- **C7 (amended) witness.** On `exReaderC7`'s route, the candidate
entries have ascending internal trip IDs and the emitted trips are sorted
as the amended claim states. -/
theorem c7_amended_witness :
    (candEntries exReaderC7 ⟨0, "R", "", [0, 1], []⟩ true).Pairwise
      (fun u v => u.2.trip_id_internal < v.2.trip_id_internal)
    ∧ ((processRoute exReaderC7 true ⟨0, "R", "", [0, 1], []⟩).trips).Pairwise
      (fun u v => etLtB (tripKey u) (tripKey v) = true ∨
        (tripKey u = tripKey v ∧ u.trip_id_internal < v.trip_id_internal)) :=
  ⟨by decide, c7_amended exReaderC7 ⟨0, "R", "", [0, 1], []⟩ true (by decide)⟩

/-- **C8 (counterexample).** `build_and_sort_trips` on `exReaderC8`, for a
directly constructed route record over the canonical pattern `[A, B]` (the
route list is an explicit argument of `build_and_sort_trips`;
`build_routes` itself raises before producing one, see C1), emits trip
`"v"` with aligned row `[5, 0]` (complete, so it passes the partial-trip
filter even with `allow_partial_trips` disabled): its defined entries
`[5, 0]` are *decreasing*, refuting the claim that defined entries are
non-decreasing along the pattern.  Nothing in the pipeline enforces
monotonicity — the validator only issues a non-blocking warning. -/
theorem c8_counterexample :
    buildAndSortTrips exReaderC8 [⟨0, "R", "", [0, 1], []⟩] false
        = [{ route_id_internal := 0, route_id_gtfs := "R", route_name := "",
             stop_ids := [0, 1],
             trips := [⟨1, "v", [some 5, some 0], false⟩,
                       ⟨0, "u", [some 10, some 20], false⟩] }]
    ∧ (([some 5, some 0] : List (Option Int)).filterMap id) = [5, 0]
    ∧ ¬ (([5, 0] : List Int).Pairwise (· ≤ ·)) := by decide

/-- **C8 (amended).** For every route emitted by `build_and_sort_trips` and
every trip in its list, the aligned time row has exactly one entry per
canonical stop: `len(t.times) = len(r.stops)`.  (The non-decreasing half of
the original claim is refuted by `c8_counterexample`.) -/
theorem c8_amended (reader : Reader) (routes : List RouteData) (allow : Bool) :
    ∀ r ∈ buildAndSortTrips reader routes allow, ∀ td ∈ r.trips,
      td.arrival_times.length = r.stop_ids.length := by
  intro r hr td htd
  obtain ⟨route, _, rfl⟩ := List.mem_map.mp hr
  obtain ⟨trip, e, he, rfl⟩ := mem_processRoute_trips htd
  exact (alignedEntry_spec he).2.1

/-- **C8 (amended) witness.** On `exReaderC8` with a directly constructed
input route over pattern `[A, B]`, both emitted trips have aligned rows of
length 2, the canonical stop count. -/
theorem c8_amended_witness :
    ({ route_id_internal := 0, route_id_gtfs := "R", route_name := "",
       stop_ids := [0, 1],
       trips := [⟨1, "v", [some 5, some 0], false⟩,
                 ⟨0, "u", [some 10, some 20], false⟩] } : RouteData)
        ∈ buildAndSortTrips exReaderC8 [⟨0, "R", "", [0, 1], []⟩] false
    ∧ (⟨1, "v", [some 5, some 0], false⟩ : TripData).arrival_times.length
        = ({ route_id_internal := 0, route_id_gtfs := "R", route_name := "",
             stop_ids := [0, 1],
             trips := [⟨1, "v", [some 5, some 0], false⟩,
                       ⟨0, "u", [some 10, some 20], false⟩] } : RouteData).stop_ids.length :=
  ⟨by decide,
   c8_amended exReaderC8 [⟨0, "R", "", [0, 1], []⟩] false _ (by decide) _ (by decide)⟩

/-! ## Trip-to-route matching ignores `direction_id` (C10) -/

/-- Reader with every trip's `direction_id` rewritten — everything else
untouched. -/
def Reader.withDirections (reader : Reader) (f : GtfsTrip → Int) : Reader :=
  { reader with trips := reader.trips.map (fun t => { t with direction_id := f t }) }

theorem candEntries_ignores_directions (reader : Reader) (f : GtfsTrip → Int)
    (route : RouteData) (allow : Bool) :
    candEntries (reader.withDirections f) route allow = candEntries reader route allow := by
  show ((reader.trips.map (fun t => { t with direction_id := f t })).filter
        (fun t => decide (t.route_id = route.route_id_gtfs))).filterMap
      (alignedEntry (reader.withDirections f) route.stop_ids allow)
    = (reader.trips.filter (fun t => decide (t.route_id = route.route_id_gtfs))).filterMap
      (alignedEntry reader route.stop_ids allow)
  have halign : alignedEntry (reader.withDirections f) route.stop_ids allow
      = alignedEntry reader route.stop_ids allow := rfl
  rw [halign]
  induction reader.trips with
  | nil => rfl
  | cons t ts ih =>
      have halign2 : alignedEntry reader route.stop_ids allow { t with direction_id := f t }
          = alignedEntry reader route.stop_ids allow t := rfl
      by_cases hp : t.route_id = route.route_id_gtfs
      · simp only [List.map_cons, List.filter_cons]
        rw [if_pos (by simp [hp]), if_pos (by simp [hp])]
        simp only [List.filterMap_cons, halign2, ih]
      · simp only [List.map_cons, List.filter_cons]
        rw [if_neg (by simp [hp]), if_neg (by simp [hp])]
        exact ih

/-- **C10.** Trips are matched to a Route by GTFS `route_id` alone: (i) the
per-route trip list is invariant under arbitrary rewrites of every trip's
`direction_id`; (ii) every trip with matching `route_id` that has stop
times covering the whole canonical pattern (e.g. an out-and-back trip over
the same stops) ends up in the Route's trip list — so such a trip lands in
the trip lists of *both* per-direction Routes of its `route_id`. -/
theorem c10_trip_matching (reader : Reader) (route : RouteData) (allow : Bool) :
    (∀ f : GtfsTrip → Int,
      processRoute (reader.withDirections f) allow route = processRoute reader allow route)
    ∧ (∀ t ∈ reader.trips, t.route_id = route.route_id_gtfs →
        ∀ sts, lookupGroup (stopTimesByTrip reader) t.trip_id = some sts →
          (alignTimes reader route.stop_ids sts).all (fun x => x.isSome) = true →
          ∃ td ∈ (processRoute reader allow route).trips, td.trip_id_gtfs = t.trip_id) := by
  constructor
  · intro f
    unfold processRoute
    rw [candEntries_ignores_directions]
  · intro t ht hroute sts hlk hdef
    have hnone : (alignTimes reader route.stop_ids sts).any (fun x => x.isNone) = false := by
      rw [List.any_eq_false]
      intro x hx
      have hx' := List.all_eq_true.mp hdef x hx
      cases x with
      | none => simp at hx'
      | some a => simp
    have hentry : alignedEntry reader route.stop_ids allow t
        = some ((alignTimes reader route.stop_ids sts).headD none,
          { trip_id_internal := reader.internalTrip t.trip_id
            trip_id_gtfs := t.trip_id
            arrival_times := alignTimes reader route.stop_ids sts
            is_partial := (alignTimes reader route.stop_ids sts).any (fun x => x.isNone) }) := by
      unfold alignedEntry
      rw [hlk]
      simp [hnone]
    refine ⟨{ trip_id_internal := reader.internalTrip t.trip_id
              trip_id_gtfs := t.trip_id
              arrival_times := alignTimes reader route.stop_ids sts
              is_partial := (alignTimes reader route.stop_ids sts).any (fun x => x.isNone) },
            ?_, rfl⟩
    apply List.mem_map.mpr
    refine ⟨((alignTimes reader route.stop_ids sts).headD none,
             { trip_id_internal := reader.internalTrip t.trip_id
               trip_id_gtfs := t.trip_id
               arrival_times := alignTimes reader route.stop_ids sts
               is_partial := (alignTimes reader route.stop_ids sts).any (fun x => x.isNone) }),
            ?_, rfl⟩
    apply (sortLe_perm tripEntryLeB _).mem_iff.mpr
    apply List.mem_filterMap.mpr
    exact ⟨t, List.mem_filter.mpr ⟨ht, by simp [hroute]⟩, hentry⟩

/-- Feed for C10: GTFS route `"R"` has trip `"p"` (direction 0, A→B), trip
`"q"` (direction 1, B→A) and the out-and-back trip `"w"` (direction 0,
A→B→A), whose stop-time map covers both canonical patterns `[A, B]` and
`[B, A]`. -/
def exReaderC10 : Reader :=
  mkReader ["A", "B"] ["R"]
    [⟨"p", "R", "s", 0⟩, ⟨"q", "R", "s", 1⟩, ⟨"w", "R", "s", 0⟩]
    [⟨"p", "A", 10, 10, 1⟩, ⟨"p", "B", 20, 20, 2⟩,
     ⟨"q", "B", 30, 30, 1⟩, ⟨"q", "A", 40, 40, 2⟩,
     ⟨"w", "A", 100, 100, 1⟩, ⟨"w", "B", 110, 110, 2⟩, ⟨"w", "A", 120, 120, 3⟩]

/-- **C10 witness.** The out-and-back trip `"w"` is included in the trip
lists of both per-direction Routes of `"R"` (canonical patterns `[0, 1]`
and `[1, 0]`). -/
theorem c10_trip_matching_witness :
    (∃ td ∈ (processRoute exReaderC10 false ⟨0, "R", "", [0, 1], []⟩).trips,
        td.trip_id_gtfs = "w")
    ∧ (∃ td ∈ (processRoute exReaderC10 false ⟨0, "R", "", [1, 0], []⟩).trips,
        td.trip_id_gtfs = "w") :=
  ⟨(c10_trip_matching exReaderC10 ⟨0, "R", "", [0, 1], []⟩ false).2 ⟨"w", "R", "s", 0⟩
      (by decide) rfl
      [⟨"w", "A", 100, 100, 1⟩, ⟨"w", "B", 110, 110, 2⟩, ⟨"w", "A", 120, 120, 3⟩]
      (by decide) (by decide),
   (c10_trip_matching exReaderC10 ⟨0, "R", "", [1, 0], []⟩ false).2 ⟨"w", "R", "s", 0⟩
      (by decide) rfl
      [⟨"w", "A", 100, 100, 1⟩, ⟨"w", "B", 110, 110, 2⟩, ⟨"w", "A", 120, 120, 3⟩]
      (by decide) (by decide)⟩

/-! ## Binary writers (`output/binary.py`)

All integers little-endian.  `struct.pack` raises on out-of-range values;
the writers are only ever handed in-range values, modelled by explicit
reduction modulo `2^w`.  Strings are a `u16` byte-length prefix plus UTF-8
bytes, modelled at the code-point level (which coincides with UTF-8 on the
ASCII strings appearing in this development).  Bytes are `Nat`s in
`[0, 256)`. -/

def u16Bytes (v : Nat) : List Nat := [v % 256, v / 256 % 256]

def u32Bytes (v : Nat) : List Nat :=
  [v % 256, v / 256 % 256, v / 65536 % 256, v / 16777216 % 256]

/-- Two's-complement little-endian i32 (`struct.pack "<i"`). -/
def i32Bytes (v : Int) : List Nat := u32Bytes (v % 4294967296).toNat

/-- `str.encode("utf-8")` — code points, coinciding with UTF-8 on ASCII. -/
def utf8Bytes (s : String) : List Nat := s.data.map Char.toNat

/-- `BinaryWriter.write_string`: u16 length prefix plus bytes. -/
def writeString (s : String) : List Nat :=
  u16Bytes (utf8Bytes s).length ++ utf8Bytes s

def magicRRTS : List Nat := [82, 82, 84, 83]
def magicRSTS : List Nat := [82, 83, 84, 83]
def magicRIDX : List Nat := [82, 73, 68, 88]

/-- One trip inside `RoutesWriter.write_route`: the trip's internal ID,
then its times with the `+∞` *values* dropped
(`times = [t for t in trip.arrival_times if t != float("inf")]`) and
delta-encoded when compression is on.  Partial trips themselves are NOT
filtered out. -/
def writeTripBytes (compression : Bool) (trip : TripData) : List Nat :=
  let times := trip.arrival_times.filterMap id
  let encoded := if compression then encode_times times else times
  u32Bytes trip.trip_id_internal ++ (encoded.map i32Bytes).join

/-- `RoutesWriter.write_route`: internal ID, name, stop count, trip count,
stop IDs, then each trip. -/
def writeRouteBytes (compression : Bool) (route : RouteData) : List Nat :=
  u32Bytes route.route_id_internal
    ++ writeString route.route_name
    ++ u32Bytes route.stop_ids.length
    ++ u32Bytes route.trips.length
    ++ (route.stop_ids.map u32Bytes).join
    ++ (route.trips.map (writeTripBytes compression)).join

/-- `routes.bin` as written by `write_binary_files`: header
(`RRTS`, schema u16, count u32) then each route record. -/
def routesFileBytes (schema : Nat) (routes : List RouteData) (compression : Bool) : List Nat :=
  magicRRTS ++ u16Bytes schema ++ u32Bytes routes.length
    ++ (routes.map (writeRouteBytes compression)).join

theorem encodeDeltas_length (prev : Int) (ts : List Int) :
    (encodeDeltas prev ts).length = ts.length := by
  induction ts generalizing prev with
  | nil => rfl
  | cons x xs ih => simp [encodeDeltas, ih]

theorem encode_times_length (ts : List Int) : (encode_times ts).length = ts.length := by
  cases ts with
  | nil => rfl
  | cons t rest => simp [encode_times, encodeDeltas_length]

theorem join_map_i32_length (l : List Int) : ((l.map i32Bytes).join).length = 4 * l.length := by
  induction l with
  | nil => rfl
  | cons x xs ih =>
      show (i32Bytes x ++ (xs.map i32Bytes).join).length = 4 * (xs.length + 1)
      rw [List.length_append, ih, show (i32Bytes x).length = 4 from rfl]
      ring

/-- The trip record length is governed by the number of *defined* entries
of the aligned row, not by the canonical stop count. -/
theorem writeTripBytes_length (c : Bool) (trip : TripData) :
    (writeTripBytes c trip).length = 4 + 4 * (trip.arrival_times.filterMap id).length := by
  cases c with
  | false =>
      show (u32Bytes trip.trip_id_internal
          ++ ((trip.arrival_times.filterMap id).map i32Bytes).join).length = _
      rw [List.length_append, join_map_i32_length,
        show (u32Bytes trip.trip_id_internal).length = 4 from rfl]
  | true =>
      show (u32Bytes trip.trip_id_internal
          ++ ((encode_times (trip.arrival_times.filterMap id)).map i32Bytes).join).length = _
      rw [List.length_append, join_map_i32_length, encode_times_length,
        show (u32Bytes trip.trip_id_internal).length = 4 from rfl]

theorem alignedEntry_partial_flag {reader : Reader} {c : List Nat} {allow : Bool} {trip : GtfsTrip}
    {e : Option Int × TripData} (h : alignedEntry reader c allow trip = some e) :
    TripData.is_partial e.2 = e.2.arrival_times.any (fun x => x.isNone)
      ∧ (allow = false → TripData.is_partial e.2 = false) := by
  unfold alignedEntry at h
  cases hlk : lookupGroup (stopTimesByTrip reader) trip.trip_id with
  | none => rw [hlk] at h; exact absurd h (by simp)
  | some sts =>
      rw [hlk] at h
      simp only at h
      split at h
      · exact absurd h (by simp)
      · rename_i hcond
        rw [Option.some.injEq] at h
        subst h
        refine ⟨rfl, ?_⟩
        intro hallow
        subst hallow
        simp only [Bool.not_false, Bool.and_true, Bool.not_eq_true] at hcond
        exact hcond

theorem filterMap_id_length {l : List (Option Int)}
    (h : l.any (fun x => x.isNone) = false) :
    (l.filterMap id).length = l.length := by
  induction l with
  | nil => rfl
  | cons x xs ih =>
      rw [List.any_cons] at h
      rcases Bool.or_eq_false_iff.mp h with ⟨hx, hxs⟩
      cases x with
      | none => simp at hx
      | some a => simp [List.filterMap_cons, ih hxs]

/-- **C2 (counterexample).** `build_and_sort_trips` on `exReaderC7` with
`allow_partial_trips` enabled, for a directly constructed route record
over the canonical pattern `[A, B]` (the route list is an explicit
argument of `build_and_sort_trips`; `build_routes` itself raises before
producing one, see C1), yields a route with declared stop count 2 whose
trip records serialize to 12 and 8 bytes: the partial trip `"b"` reaches
the writer (it is *not* filtered out) and contributes a single i32 time
value — `write_route` drops the `+∞` *positions*
(`[t for t in trip.arrival_times if t != float("inf")]`), not the partial
*trips*, so its record holds fewer than stop_count values. -/
theorem c2_counterexample :
    ((processRoute exReaderC7 true ⟨0, "R", "", [0, 1], []⟩).stop_ids.length,
      (processRoute exReaderC7 true ⟨0, "R", "", [0, 1], []⟩).trips.map
        (fun td => (writeTripBytes true td).length))
      = (2, [12, 8]) := by decide

/-- **C2 (amended).** Each serialized trip contributes exactly as many i32
time values as its aligned row has *defined* entries (record length
`4 + 4·defined`); the writer never filters partial trips.  When
`allow_partial_trips` is disabled, every surviving trip is complete, so
each record then holds exactly `stop_count` values (`4 + 4·stop_count`
bytes). -/
theorem c2_amended :
    (∀ (c : Bool) (trip : TripData),
        (writeTripBytes c trip).length = 4 + 4 * (trip.arrival_times.filterMap id).length)
    ∧ (∀ (reader : Reader) (routes : List RouteData),
        ∀ r ∈ buildAndSortTrips reader routes false, ∀ td ∈ r.trips,
          (writeTripBytes true td).length = 4 + 4 * r.stop_ids.length) := by
  refine ⟨writeTripBytes_length, ?_⟩
  intro reader routes r hr td htd
  obtain ⟨route, _, rfl⟩ := List.mem_map.mp hr
  obtain ⟨trip, e, he, rfl⟩ := mem_processRoute_trips htd
  rw [writeTripBytes_length]
  have hp := alignedEntry_partial_flag he
  have hnone : e.2.arrival_times.any (fun x => x.isNone) = false := by
    rw [← hp.1]; exact hp.2 rfl
  rw [filterMap_id_length hnone, (alignedEntry_spec he).2.1]
  rfl

/-- **C2 (amended) witness.** On `exReaderC8` with partial trips
disallowed and a directly constructed input route over pattern `[A, B]`,
trip `"u"`'s record is `4 + 4·2` bytes — exactly the declared stop count's
worth of values. -/
theorem c2_amended_witness :
    ({ route_id_internal := 0, route_id_gtfs := "R", route_name := "",
       stop_ids := [0, 1],
       trips := [⟨1, "v", [some 5, some 0], false⟩,
                 ⟨0, "u", [some 10, some 20], false⟩] } : RouteData)
        ∈ buildAndSortTrips exReaderC8 [⟨0, "R", "", [0, 1], []⟩] false
    ∧ (writeTripBytes true (⟨0, "u", [some 10, some 20], false⟩ : TripData)).length
        = 4 + 4 * ({ route_id_internal := 0, route_id_gtfs := "R", route_name := "",
                     stop_ids := [0, 1],
                     trips := [⟨1, "v", [some 5, some 0], false⟩,
                               ⟨0, "u", [some 10, some 20], false⟩] } : RouteData).stop_ids.length :=
  ⟨by decide, c2_amended.2 exReaderC8 [⟨0, "R", "", [0, 1], []⟩] _ (by decide) _ (by decide)⟩

/-! ## Binary reading primitives (`BinaryReader` in `raptor_query.py` and
`output/binary.py`)

`read_bytes(n)` raises `ValueError("Expected n bytes, got m")` when fewer
than `n` bytes remain; wrong magics raise `ValueError("Invalid ... magic")`.
Both surface as decode errors here. -/

inductive DecodeErr where
  | truncated (expected got : Nat)
  | badMagic (found : List Nat)
  deriving DecidableEq, Repr

def leNat : List Nat → Nat
  | [] => 0
  | b :: bs => b + 256 * leNat bs

def readBytes (n : Nat) (bs : List Nat) : Except DecodeErr (List Nat × List Nat) :=
  if bs.length < n then .error (.truncated n bs.length)
  else .ok (bs.take n, bs.drop n)

def readUint16 (bs : List Nat) : Except DecodeErr (Nat × List Nat) :=
  match readBytes 2 bs with
  | .error e => .error e
  | .ok (d, rest) => .ok (leNat d, rest)

def readUint32 (bs : List Nat) : Except DecodeErr (Nat × List Nat) :=
  match readBytes 4 bs with
  | .error e => .error e
  | .ok (d, rest) => .ok (leNat d, rest)

def readInt32 (bs : List Nat) : Except DecodeErr (Int × List Nat) :=
  match readBytes 4 bs with
  | .error e => .error e
  | .ok (d, rest) =>
      .ok (if leNat d < 2147483648 then (leNat d : Int) else (leNat d : Int) - 4294967296, rest)

def readMany {σ : Type} (rd : List Nat → Except DecodeErr (σ × List Nat)) :
    Nat → List Nat → Except DecodeErr (List σ × List Nat)
  | 0, bs => .ok ([], bs)
  | n + 1, bs =>
      match rd bs with
      | .error e => .error e
      | .ok (x, rest) =>
          match readMany rd n rest with
          | .error e => .error e
          | .ok (xs, rest') => .ok (x :: xs, rest')

/-! ## The query engine's `routes.bin` loader (`raptor_query.py`,
`load_routes`)

Per route it reads: `route_id` (u32), `num_stops` (u32), `num_trips`
(u32), the stop IDs, and per trip a u32 trip ID plus `num_stops` i32
values which it prefix-sums.  It does NOT read the `route_name` string
that `RoutesWriter.write_route` places between the route ID and the stop
count.  (For `num_stops = 0` the Python `times = [times_encoded[0]]`
would raise `IndexError`; `decode_times` agrees with the loop on every
non-empty row.) -/

structure QTrip where
  trip_id : Nat
  arrival_times : List Int
  deriving DecidableEq, Repr

structure QRoute where
  route_id : Nat
  stop_ids : List Nat
  trips : List QTrip
  deriving DecidableEq, Repr

def readTripQ (numStops : Nat) (bs : List Nat) : Except DecodeErr (QTrip × List Nat) :=
  match readUint32 bs with
  | .error e => .error e
  | .ok (tid, bs1) =>
      match readMany readInt32 numStops bs1 with
      | .error e => .error e
      | .ok (enc, bs2) => .ok ({ trip_id := tid, arrival_times := decode_times enc }, bs2)

def readRouteQ (bs : List Nat) : Except DecodeErr (QRoute × List Nat) :=
  match readUint32 bs with
  | .error e => .error e
  | .ok (rid, bs1) =>
      match readUint32 bs1 with
      | .error e => .error e
      | .ok (numStops, bs2) =>
          match readUint32 bs2 with
          | .error e => .error e
          | .ok (numTrips, bs3) =>
              match readMany readUint32 numStops bs3 with
              | .error e => .error e
              | .ok (stopIds, bs4) =>
                  match readMany (readTripQ numStops) numTrips bs4 with
                  | .error e => .error e
                  | .ok (trips, bs5) =>
                      .ok ({ route_id := rid, stop_ids := stopIds, trips := trips }, bs5)

/-- `load_routes`: magic check, schema read (never compared), route count,
then the per-route records. -/
def load_routes (bs : List Nat) : Except DecodeErr (List QRoute) :=
  match readBytes 4 bs with
  | .error e => .error e
  | .ok (magic, bs1) =>
      if magic ≠ magicRRTS then .error (.badMagic magic)
      else
        match readUint16 bs1 with
        | .error e => .error e
        | .ok (_, bs2) =>
            match readUint32 bs2 with
            | .error e => .error e
            | .ok (count, bs3) =>
                match readMany readRouteQ count bs3 with
                | .error e => .error e
                | .ok (routes, _) => .ok routes

/-- **C3.** `load_routes` does not invert `RoutesWriter.write_route`: the
writer emits the route name string (u16 length prefix + bytes) between
the route ID and the stop count, but the loader never reads it, so it
misparses the name's length prefix and first bytes as `num_stops`.  On
the single route below (internal ID 7, name `"AB"`, stops `[1, 2]`, one
complete trip with times 100, 200) the loader takes
`num_stops = 0x42410002` from the bytes `[2, 0, 'A', 'B']` and runs off
the end of the record: decoding fails with a truncation error instead of
recovering the written route. -/
theorem c3_loader_mismatch :
    load_routes (routesFileBytes 1
        [{ route_id_internal := 7, route_id_gtfs := "R", route_name := "AB",
           stop_ids := [1, 2],
           trips := [⟨3, "x", [some 100, some 200], false⟩] }] true)
      = .error (.truncated 4 0) := by decide

/-! ## Header validation (`output/binary.py`, `validate_binary_files`)

For each of the three artifacts the validator reads the 4-byte magic
(raising on mismatch), then the u16 schema version — which it only logs,
*never* compares against the supported version — and for `routes.bin` /
`stops.bin` the u32 count. -/

/-- Modelled from the spec: the supported schema version constant
`SCHEMA_VERSION` from `raptor_pipeline/version.py`, a module that is not
under `src/`; the spec fixes only that it is a u16.  Its concrete value is
irrelevant to every theorem below: the decoders never compare it. -/
def SCHEMA_VERSION : Nat := 1

def validateRoutesHeader (bs : List Nat) : Except DecodeErr Nat :=
  match readBytes 4 bs with
  | .error e => .error e
  | .ok (magic, bs1) =>
      if magic ≠ magicRRTS then .error (.badMagic magic)
      else
        match readUint16 bs1 with
        | .error e => .error e
        | .ok (_, bs2) =>
            match readUint32 bs2 with
            | .error e => .error e
            | .ok (count, _) => .ok count

def validateStopsHeader (bs : List Nat) : Except DecodeErr Nat :=
  match readBytes 4 bs with
  | .error e => .error e
  | .ok (magic, bs1) =>
      if magic ≠ magicRSTS then .error (.badMagic magic)
      else
        match readUint16 bs1 with
        | .error e => .error e
        | .ok (_, bs2) =>
            match readUint32 bs2 with
            | .error e => .error e
            | .ok (count, _) => .ok count

def validateIndexHeader (bs : List Nat) : Except DecodeErr Unit :=
  match readBytes 4 bs with
  | .error e => .error e
  | .ok (magic, bs1) =>
      if magic ≠ magicRIDX then .error (.badMagic magic)
      else
        match readUint16 bs1 with
        | .error e => .error e
        | .ok (_, _) => .ok ()

/-- `validate_binary_files`: validate the three headers in order and
return the route/stop counts. -/
def validate_binary_files (routesBin stopsBin indexBin : List Nat) :
    Except DecodeErr (Nat × Nat) :=
  match validateRoutesHeader routesBin with
  | .error e => .error e
  | .ok rc =>
      match validateStopsHeader stopsBin with
      | .error e => .error e
      | .ok sc =>
          match validateIndexHeader indexBin with
          | .error e => .error e
          | .ok _ => .ok (rc, sc)

theorem readBytes_append (n : Nat) (l rest : List Nat) (h : l.length = n) :
    readBytes n (l ++ rest) = .ok (l, rest) := by
  unfold readBytes
  rw [if_neg (by rw [List.length_append, h]; omega)]
  subst h
  rw [List.take_left, List.drop_left]

theorem leNat_u16 (v : Nat) : leNat (u16Bytes v) = v % 65536 := by
  show v % 256 + 256 * (v / 256 % 256 + 256 * 0) = v % 65536
  omega

theorem leNat_u32 (v : Nat) : leNat (u32Bytes v) = v % 4294967296 := by
  show v % 256 + 256 * (v / 256 % 256 + 256 * (v / 65536 % 256
      + 256 * (v / 16777216 % 256 + 256 * 0))) = v % 4294967296
  omega

theorem readU16_val (v : Nat) (rest : List Nat) :
    readUint16 (u16Bytes v ++ rest) = .ok (v % 65536, rest) := by
  unfold readUint16
  rw [readBytes_append 2 (u16Bytes v) rest rfl]
  show Except.ok (leNat (u16Bytes v), rest) = _
  rw [leNat_u16]

theorem readU32_val (v : Nat) (rest : List Nat) :
    readUint32 (u32Bytes v ++ rest) = .ok (v % 4294967296, rest) := by
  unfold readUint32
  rw [readBytes_append 4 (u32Bytes v) rest rfl]
  show Except.ok (leNat (u32Bytes v), rest) = _
  rw [leNat_u32]

theorem validateRoutesHeader_ok (v c : Nat) (r : List Nat) :
    validateRoutesHeader (magicRRTS ++ (u16Bytes v ++ (u32Bytes c ++ r))) =
      .ok (c % 4294967296) := by
  unfold validateRoutesHeader
  rw [readBytes_append 4 magicRRTS (u16Bytes v ++ (u32Bytes c ++ r)) rfl]
  simp [readU16_val, readU32_val]

theorem validateStopsHeader_ok (v c : Nat) (r : List Nat) :
    validateStopsHeader (magicRSTS ++ (u16Bytes v ++ (u32Bytes c ++ r))) =
      .ok (c % 4294967296) := by
  unfold validateStopsHeader
  rw [readBytes_append 4 magicRSTS (u16Bytes v ++ (u32Bytes c ++ r)) rfl]
  simp [readU16_val, readU32_val]

theorem validateIndexHeader_ok (v : Nat) (r : List Nat) :
    validateIndexHeader (magicRIDX ++ (u16Bytes v ++ r)) = .ok () := by
  unfold validateIndexHeader
  rw [readBytes_append 4 magicRIDX (u16Bytes v ++ r) rfl]
  simp [readU16_val]

/-- **C6 (counterexample).** Three artifacts whose headers carry schema
version 9999 — different from the supported `SCHEMA_VERSION` — validate
*successfully*: no decoder in the code compares the schema version, so "for
every file with correct magic but a different schema version, decoding
fails" is false. -/
theorem c6_counterexample :
    validate_binary_files
        (magicRRTS ++ (u16Bytes 9999 ++ (u32Bytes 5 ++ [])))
        (magicRSTS ++ (u16Bytes 9999 ++ (u32Bytes 3 ++ [])))
        (magicRIDX ++ (u16Bytes 9999 ++ []))
      = .ok (5, 3)
    ∧ (9999 : Nat) ≠ SCHEMA_VERSION := by
  constructor
  · decide
  · decide

/-- **C6 (amended).** Decoding fails fast with a truncation error when
fewer bytes remain than a read requires, and with a bad-magic error when
the 4-byte magic differs; but the u16 schema version is read and
discarded, never compared: a `routes.bin`/`stops.bin`/`index.bin` triple
with correct magics validates successfully for *every* schema version. -/
theorem c6_amended :
    (∀ (n : Nat) (bs : List Nat), bs.length < n →
        readBytes n bs = .error (.truncated n bs.length))
    ∧ (∀ (m rest stopsBin indexBin : List Nat), m.length = 4 → m ≠ magicRRTS →
        validate_binary_files (m ++ rest) stopsBin indexBin = .error (.badMagic m))
    ∧ (∀ (v1 c1 v2 c2 v3 : Nat) (r1 r2 r3 : List Nat),
        validate_binary_files
            (magicRRTS ++ (u16Bytes v1 ++ (u32Bytes c1 ++ r1)))
            (magicRSTS ++ (u16Bytes v2 ++ (u32Bytes c2 ++ r2)))
            (magicRIDX ++ (u16Bytes v3 ++ r3))
          = .ok (c1 % 4294967296, c2 % 4294967296)) := by
  refine ⟨?_, ?_, ?_⟩
  · intro n bs h
    unfold readBytes
    rw [if_pos h]
  · intro m rest stopsBin indexBin hm hne
    unfold validate_binary_files validateRoutesHeader
    rw [readBytes_append 4 m rest hm]
    simp [hne]
  · intro v1 c1 v2 c2 v3 r1 r2 r3
    unfold validate_binary_files
    rw [validateRoutesHeader_ok, validateStopsHeader_ok, validateIndexHeader_ok]

/-- **C6 (amended) witness.** A one-byte `routes.bin` is rejected as
truncated; a wrong-magic file is rejected; and the schema-9999 triple
validates. -/
theorem c6_amended_witness :
    readBytes 4 [82] = .error (.truncated 4 1)
    ∧ validate_binary_files ([88, 88, 88, 88] ++ []) [] [] = .error (.badMagic [88, 88, 88, 88])
    ∧ validate_binary_files
        (magicRRTS ++ (u16Bytes 2 ++ (u32Bytes 7 ++ [])))
        (magicRSTS ++ (u16Bytes 2 ++ (u32Bytes 9 ++ [])))
        (magicRIDX ++ (u16Bytes 2 ++ []))
      = .ok (7 % 4294967296, 9 % 4294967296) :=
  ⟨c6_amended.1 4 [82] (by decide),
   c6_amended.2.1 [88, 88, 88, 88] [] [] [] (by decide) (by decide),
   c6_amended.2.2 2 7 2 9 2 [] [] []⟩

/-! ## The RAPTOR route scan (`raptor_query.py`, `raptor`, lines 271–308)

For one route in round `k` the code runs TWO separate passes: a first loop
over all stop indices that selects a single best boarding — for each stop
with finite `τ[k−1]`, the first trip in list order whose time at that
column is `≥ τ[k−1]`, kept if its boarding time beats the best so far —
and a second loop that relaxes the stops from that one boarding index
onward with that one trip's times.  `τ` maps stop IDs to `Option Int`
(`none` = `+∞`). -/

/-- The inner `for trip in route.trips: ... break` — first trip in list
order with a time at column `idx` that is `≥ τ`. -/
def findFirstValid (trips : List QTrip) (idx : Nat) (τ : Int) : Option QTrip :=
  trips.find? (fun trip =>
    decide (idx < trip.arrival_times.length) && decide (τ ≤ trip.arrival_times.getD idx 0))

/-- First loop: fold the boarding candidate over the enumerated stops,
keeping `(best_trip, boarding_stop_idx, earliest_boarding_time)`. -/
def scanBoardState (tauPrev : Nat → Option Int) (trips : List QTrip) :
    List (Nat × Nat) → Option (QTrip × Nat × Int) → Option (QTrip × Nat × Int)
  | [], best => best
  | (idx, stopId) :: rest, best =>
      match tauPrev stopId with
      | none => scanBoardState tauPrev trips rest best
      | some τ =>
          match findFirstValid trips idx τ with
          | none => scanBoardState tauPrev trips rest best
          | some trip =>
              let t := trip.arrival_times.getD idx 0
              let better := match best with
                | none => true
                | some (_, _, bt) => decide (t < bt)
              scanBoardState tauPrev trips rest (if better then some (trip, idx, t) else best)

def findBoarding (route : QRoute) (tauPrev : Nat → Option Int) :
    Option (QTrip × Nat × Int) :=
  scanBoardState tauPrev route.trips route.stop_ids.enum none

/-- Second loop: `for stop_idx in range(boarding_stop_idx, len(stop_ids))`,
updating `τ[k]` in place with the single boarded trip's times. -/
def relaxFrom (trip : QTrip) (b : Nat) :
    List (Nat × Nat) → (Nat → Option Int) → (Nat → Option Int)
  | [], τ => τ
  | (i, s) :: rest, τ =>
      if b ≤ i ∧ i < trip.arrival_times.length then
        if etLtB (some (trip.arrival_times.getD i 0)) (τ s) then
          relaxFrom trip b rest
            (fun x => if x = s then some (trip.arrival_times.getD i 0) else τ x)
        else relaxFrom trip b rest τ
      else relaxFrom trip b rest τ

/-- One route's scan within a RAPTOR round, as `raptor_query.py` implements
it: a single boarding choice, then relaxation from it. -/
def scanRoute (route : QRoute) (tauPrev tauK : Nat → Option Int) : Nat → Option Int :=
  match findBoarding route tauPrev with
  | none => tauK
  | some (trip, b, _) => relaxFrom trip b route.stop_ids.enum tauK

/-- Modelled from the spec: the earliest trip `t'` with
`t'.times[i] ≥ τ[k−1][s]` (minimal time at column `i`; the spec's binary
search over trips sorted by that column). -/
def specEarliestTrip (trips : List QTrip) (idx : Nat) (τ : Int) : Option QTrip :=
  match trips.filter (fun t =>
      decide (idx < t.arrival_times.length) && decide (τ ≤ t.arrival_times.getD idx 0)) with
  | [] => none
  | t :: ts =>
      some (ts.foldl (fun best u =>
        if u.arrival_times.getD idx 0 < best.arrival_times.getD idx 0 then u else best) t)

/-- Modelled from the spec (§4.5 round step 2): walk the pattern once,
at each index first relaxing with the active trip, then attempting to
board or hop to an earlier trip; the boarding may change at several
indices within the one scan. -/
def specGo (trips : List QTrip) (tauPrev : Nat → Option Int) :
    List (Nat × Nat) → Option (QTrip × Nat) → (Nat → Option Int) → (Nat → Option Int)
  | [], _, τ => τ
  | (i, s) :: rest, active, τ =>
      let τ' := match active with
        | some (trip, _) =>
            if i < trip.arrival_times.length
                ∧ etLtB (some (trip.arrival_times.getD i 0)) (τ s) = true then
              fun x => if x = s then some (trip.arrival_times.getD i 0) else τ x
            else τ
        | none => τ
      let active' := match tauPrev s with
        | none => active
        | some τp =>
            match specEarliestTrip trips i τp with
            | none => active
            | some t' =>
                match active with
                | none => some (t', i)
                | some (trip, _) =>
                    if t'.arrival_times.getD i 0 < trip.arrival_times.getD i 0 then
                      some (t', i)
                    else active
      specGo trips tauPrev rest active' τ'

/-- The spec's route scan (for comparison with `scanRoute`). -/
def specScanRoute (route : QRoute) (tauPrev tauK : Nat → Option Int) : Nat → Option Int :=
  specGo route.trips tauPrev route.stop_ids.enum none tauK

/-- Round-(k−1) labels for the C4 counterexample: stop 0 reachable at 50,
stop 1 at 0, stop 2 unreached. -/
def tauPrevC4 : Nat → Option Int :=
  fun s => if s = 0 then some 50 else if s = 1 then some 0 else none

/-- Route for the C4 counterexample: pattern `[0, 1, 2]`, trips sorted by
first time — trip 0 at `[10, 20, 30]`, trip 1 at `[60, 70, 80]`. -/
def rC4 : QRoute :=
  { route_id := 0, stop_ids := [0, 1, 2],
    trips := [⟨0, [10, 20, 30]⟩, ⟨1, [60, 70, 80]⟩] }

/-- **C4 (counterexample).** On `rC4` with `tauPrevC4`, the spec's scan
boards trip 1 at index 0, relaxes stop 1 to 70, and only then hops to
trip 0 — so `τ[k]` at stop 1 becomes 70; the code's scan instead picks its
single best boarding (trip 0 at index 1, boarding time 20) before
relaxing anything, and sets stop 1 to 20.  The code therefore does not
implement the claimed per-index board-or-hop interleaving, under which
the boarding may change at multiple stop indices mid-scan. -/
theorem c4_counterexample :
    scanRoute rC4 tauPrevC4 (fun _ => none) 1 = some 20
    ∧ specScanRoute rC4 tauPrevC4 (fun _ => none) 1 = some 70
    ∧ scanRoute rC4 tauPrevC4 (fun _ => none) 1
        ≠ specScanRoute rC4 tauPrevC4 (fun _ => none) 1 := by
  refine ⟨by decide, by decide, ?_⟩
  intro h
  rw [show scanRoute rC4 tauPrevC4 (fun _ => none) 1 = some 20 from by decide,
    show specScanRoute rC4 tauPrevC4 (fun _ => none) 1 = some 70 from by decide] at h
  exact absurd h (by decide)

theorem relaxFrom_spec (trip : QTrip) (b : Nat) (l : List (Nat × Nat))
    (τ : Nat → Option Int) (s : Nat) :
    relaxFrom trip b l τ s = τ s ∨
      ∃ i, (i, s) ∈ l ∧ b ≤ i ∧ i < trip.arrival_times.length ∧
        relaxFrom trip b l τ s = some (trip.arrival_times.getD i 0) := by
  induction l generalizing τ with
  | nil => exact Or.inl rfl
  | cons p rest ih =>
      obtain ⟨i0, s0⟩ := p
      by_cases hc : b ≤ i0 ∧ i0 < trip.arrival_times.length
      · by_cases hlt : etLtB (some (trip.arrival_times.getD i0 0)) (τ s0) = true
        · have hstep : relaxFrom trip b ((i0, s0) :: rest) τ
              = relaxFrom trip b rest
                  (fun x => if x = s0 then some (trip.arrival_times.getD i0 0) else τ x) := by
            simp only [relaxFrom]
            rw [if_pos hc, if_pos hlt]
          rw [hstep]
          rcases ih (fun x => if x = s0 then some (trip.arrival_times.getD i0 0) else τ x)
            with h | ⟨i, hmem, hbi, hlen, heq⟩
          · by_cases hs : s = s0
            · subst hs
              right
              exact ⟨i0, by simp, hc.1, hc.2, by rw [h]; simp⟩
            · left
              rw [h]
              simp [hs]
          · right
            exact ⟨i, List.mem_cons_of_mem _ hmem, hbi, hlen, heq⟩
        · have hstep : relaxFrom trip b ((i0, s0) :: rest) τ = relaxFrom trip b rest τ := by
            simp only [relaxFrom]
            rw [if_pos hc, if_neg hlt]
          rw [hstep]
          rcases ih τ with h | ⟨i, hmem, hbi, hlen, heq⟩
          · exact Or.inl h
          · exact Or.inr ⟨i, List.mem_cons_of_mem _ hmem, hbi, hlen, heq⟩
      · have hstep : relaxFrom trip b ((i0, s0) :: rest) τ = relaxFrom trip b rest τ := by
          simp only [relaxFrom]
          rw [if_neg hc]
        rw [hstep]
        rcases ih τ with h | ⟨i, hmem, hbi, hlen, heq⟩
        · exact Or.inl h
        · exact Or.inr ⟨i, List.mem_cons_of_mem _ hmem, hbi, hlen, heq⟩

/-- **C4 (amended).** The code's route scan makes a *single* boarding
choice per route and round: whenever the scan changes `τ[k]` at a stop
`s`, there is one `(trip, boarding index, boarding time)` triple selected
by the first loop, and the new value at `s` is that one trip's arrival
time at an index `≥` the boarding index where the pattern visits `s`.
The boarding never changes within a scan. -/
theorem c4_amended (route : QRoute) (tauPrev tauK : Nat → Option Int) (s : Nat)
    (h : scanRoute route tauPrev tauK s ≠ tauK s) :
    ∃ trip b t i, findBoarding route tauPrev = some (trip, b, t)
      ∧ b ≤ i ∧ i < trip.arrival_times.length ∧ (i, s) ∈ route.stop_ids.enum
      ∧ scanRoute route tauPrev tauK s = some (trip.arrival_times.getD i 0) := by
  cases hb : findBoarding route tauPrev with
  | none =>
      exfalso
      apply h
      unfold scanRoute
      rw [hb]
  | some tbt =>
      obtain ⟨trip, b, t⟩ := tbt
      have hs : scanRoute route tauPrev tauK = relaxFrom trip b route.stop_ids.enum tauK := by
        unfold scanRoute
        rw [hb]
      rw [hs] at h
      rcases relaxFrom_spec trip b route.stop_ids.enum tauK s with heq | ⟨i, hmem, hbi, hlen, heq⟩
      · exact absurd heq h
      · exact ⟨trip, b, t, i, rfl, hbi, hlen, hmem, by rw [hs]; exact heq⟩

/-- **C4 (amended) witness.** On the counterexample data, the scan changed
stop 1, and every change traces back to the single boarding
(trip 0, index 1, time 20). -/
theorem c4_amended_witness :
    scanRoute rC4 tauPrevC4 (fun _ => none) 1 ≠ (fun _ => (none : Option Int)) 1
    ∧ ∃ trip b t i, findBoarding rC4 tauPrevC4 = some (trip, b, t)
        ∧ b ≤ i ∧ i < trip.arrival_times.length ∧ (i, 1) ∈ rC4.stop_ids.enum
        ∧ scanRoute rC4 tauPrevC4 (fun _ => none) 1 = some (trip.arrival_times.getD i 0) :=
  ⟨by decide, c4_amended rC4 tauPrevC4 (fun _ => none) 1 (by decide)⟩

/-! ## Stops, index and manifest output (`output/binary.py`,
`api.py._write_period_output`)

`stops.bin` carries IEEE-754 doubles for the coordinates; they are
modelled opaquely as their 8 raw bytes (`latBytes`/`lonBytes`), since no
claim computes with them.  `hashlib.sha256(...).hexdigest()` is an
external primitive of which the pipeline uses only that it is a fixed
deterministic function of the file bytes; theorems abstract over it. -/

def u64Bytes (v : Nat) : List Nat :=
  u32Bytes (v % 4294967296) ++ u32Bytes (v / 4294967296)

structure StopData where
  stop_id_internal : Nat
  stop_id_gtfs : String
  name : String
  latBytes : List Nat
  lonBytes : List Nat
  route_ids : List Nat
  transfers : List (Nat × Int)
  deriving DecidableEq, Repr

structure NetworkIndex where
  stop_to_routes : List (Nat × List Nat)
  route_offsets : List (Nat × Nat)
  stop_offsets : List (Nat × Nat)
  deriving DecidableEq, Repr

/-- `StopsWriter.write_stop`. -/
def writeStopBytes (s : StopData) : List Nat :=
  u32Bytes s.stop_id_internal ++ writeString s.name ++ s.latBytes ++ s.lonBytes
    ++ u32Bytes s.route_ids.length ++ (s.route_ids.map u32Bytes).join
    ++ u32Bytes s.transfers.length
    ++ (s.transfers.map (fun p => u32Bytes p.1 ++ i32Bytes p.2)).join

def stopsFileBytes (schema : Nat) (stops : List StopData) : List Nat :=
  magicRSTS ++ u16Bytes schema ++ u32Bytes stops.length ++ (stops.map writeStopBytes).join

/-- `IndexWriter.write_index`: each mapping with keys ascending
(`sorted(...keys())`). -/
def indexFileBytes (schema : Nat) (idx : NetworkIndex) : List Nat :=
  magicRIDX ++ u16Bytes schema
    ++ u32Bytes idx.stop_to_routes.length
    ++ ((sortLe (fun a b => decide (a.1 ≤ b.1)) idx.stop_to_routes).map
          (fun p => u32Bytes p.1 ++ u32Bytes p.2.length ++ (p.2.map u32Bytes).join)).join
    ++ u32Bytes idx.route_offsets.length
    ++ ((sortLe (fun a b => decide (a.1 ≤ b.1)) idx.route_offsets).map
          (fun p => u32Bytes p.1 ++ u64Bytes p.2)).join
    ++ u32Bytes idx.stop_offsets.length
    ++ ((sortLe (fun a b => decide (a.1 ≤ b.1)) idx.stop_offsets).map
          (fun p => u32Bytes p.1 ++ u64Bytes p.2)).join

/-- JSON documents as `json.dump(..., indent=2, sort_keys=True)` renders
them: the rendering is a deterministic injective function of this
key-sorted document, so byte equality of `manifest.json` is equivalence of
these values. -/
inductive JVal where
  | s (v : String)
  | n (v : Nat)
  | o (fields : List (String × JVal))

structure Artifacts where
  routesBin : List Nat
  stopsBin : List Nat
  indexBin : List Nat
  manifest : JVal

def tripsTotal (routes : List RouteData) : Nat :=
  (routes.map (fun r => r.trips.length)).sum

def stopTimesTotal (routes : List RouteData) : Nat :=
  (routes.map (fun r => r.stop_ids.length * r.trips.length)).sum

def transfersTotal (stops : List StopData) : Nat :=
  (stops.map (fun s => s.transfers.length)).sum

/-- `_write_period_output` (`api.py` lines 171–243) for the default binary
format: write the three artifacts, hash them, and assemble the manifest
whose `created_at` is `start_time.isoformat()` — the wall-clock timestamp
`datetime.now(UTC)` taken at the start of `convert`, here the explicit
parameter `now`.  All dict keys appear in the sorted order `json.dump`
emits. -/
def writePeriodOutput (sha : List Nat → String) (pythonVer platformStr toolVer : String)
    (routes : List RouteData) (stops : List StopData) (index : NetworkIndex)
    (inputPath : String) (periodName : Option String) (compression : Bool)
    (now : String) : Artifacts :=
  let routesBin := routesFileBytes SCHEMA_VERSION routes compression
  let stopsBin := stopsFileBytes SCHEMA_VERSION stops
  let indexBin := indexFileBytes SCHEMA_VERSION index
  let inputs := match periodName with
    | none => [("gtfs_path", JVal.s inputPath)]
    | some p => [("gtfs_path", JVal.s inputPath), ("period", JVal.s p)]
  { routesBin := routesBin
    stopsBin := stopsBin
    indexBin := indexBin
    manifest := .o
      [("build", .o [("platform", .s platformStr), ("python", .s pythonVer)]),
       ("created_at", .s now),
       ("inputs", .o inputs),
       ("outputs", .o [("index.bin", .s (sha indexBin)),
                       ("routes.bin", .s (sha routesBin)),
                       ("stops.bin", .s (sha stopsBin))]),
       ("schema_version", .n SCHEMA_VERSION),
       ("stats", .o [("routes", .n routes.length),
                     ("stop_times", .n (stopTimesTotal routes)),
                     ("stops", .n stops.length),
                     ("transfers", .n (transfersTotal stops)),
                     ("trips", .n (tripsTotal routes))]),
       ("tool_version", .s toolVer)] }

/-- The manifest's `created_at` field. -/
def createdAtOf : JVal → Option String
  | .o (_ :: (_, .s v) :: _) => some v
  | _ => none

/-- Stand-in for `hashlib.sha256(...).hexdigest()`: a fixed deterministic
digest of the bytes (the only property the pipeline relies on). -/
def sha256hex (bs : List Nat) : String :=
  toString (bs.foldl (fun a b => (a * 131 + b) % 1000000007) 7)

/-- **C5 (counterexample).** Two runs of the conversion on the *same*
input data, started one second apart, produce different `manifest.json`
documents: `created_at` is `datetime.now(UTC)`, a function of the clock,
not of the input bytes.  Convert is therefore not the same function of the
input bytes alone for every output file. -/
theorem c5_counterexample :
    (writePeriodOutput sha256hex "3.12.0" "Linux-x86_64" "0.1.0" [] [] ⟨[], [], []⟩
        "gtfs" none true "2024-01-01T00:00:00+00:00").manifest
      ≠ (writePeriodOutput sha256hex "3.12.0" "Linux-x86_64" "0.1.0" [] [] ⟨[], [], []⟩
        "gtfs" none true "2024-01-01T00:00:01+00:00").manifest := by
  intro h
  have h2 := congrArg createdAtOf h
  have e1 : createdAtOf (writePeriodOutput sha256hex "3.12.0" "Linux-x86_64" "0.1.0" [] []
      ⟨[], [], []⟩ "gtfs" none true "2024-01-01T00:00:00+00:00").manifest
      = some "2024-01-01T00:00:00+00:00" := rfl
  have e2 : createdAtOf (writePeriodOutput sha256hex "3.12.0" "Linux-x86_64" "0.1.0" [] []
      ⟨[], [], []⟩ "gtfs" none true "2024-01-01T00:00:01+00:00").manifest
      = some "2024-01-01T00:00:01+00:00" := rfl
  rw [e1, e2] at h2
  exact absurd (Option.some.inj h2) (by decide)

/-- **C5 (amended).** The binary artifacts are functions of the
transformed input data alone — identical across runs regardless of the
start time — while `manifest.json` additionally embeds the run's
wall-clock `created_at`: two runs' manifests coincide exactly when their
timestamps do. -/
theorem c5_amended (sha : List Nat → String) (pv plat tool : String)
    (routes : List RouteData) (stops : List StopData) (index : NetworkIndex)
    (inputPath : String) (periodName : Option String) (compression : Bool)
    (t1 t2 : String) :
    (writePeriodOutput sha pv plat tool routes stops index inputPath periodName compression
        t1).routesBin
      = (writePeriodOutput sha pv plat tool routes stops index inputPath periodName compression
        t2).routesBin
    ∧ (writePeriodOutput sha pv plat tool routes stops index inputPath periodName compression
        t1).stopsBin
      = (writePeriodOutput sha pv plat tool routes stops index inputPath periodName compression
        t2).stopsBin
    ∧ (writePeriodOutput sha pv plat tool routes stops index inputPath periodName compression
        t1).indexBin
      = (writePeriodOutput sha pv plat tool routes stops index inputPath periodName compression
        t2).indexBin
    ∧ ((writePeriodOutput sha pv plat tool routes stops index inputPath periodName compression
        t1).manifest
      = (writePeriodOutput sha pv plat tool routes stops index inputPath periodName compression
        t2).manifest ↔ t1 = t2) := by
  refine ⟨rfl, rfl, rfl, ⟨fun h => ?_, fun h => by rw [h]⟩⟩
  have h2 := congrArg createdAtOf h
  have e1 : createdAtOf (writePeriodOutput sha pv plat tool routes stops index inputPath
      periodName compression t1).manifest = some t1 := rfl
  have e2 : createdAtOf (writePeriodOutput sha pv plat tool routes stops index inputPath
      periodName compression t2).manifest = some t2 := rfl
  rw [e1, e2] at h2
  exact Option.some.inj h2
